import Mathlib

namespace VueCore

/-- JavaScript runtime values, with composite values represented as references
to heap addresses.  `nan` is a separate constructor because JavaScript strict
equality on NaN is always false. -/
inductive VValue : Type where
  | undef : VValue
  | vnull : VValue
  | nan   : VValue
  | num   : Int → VValue
  | str   : String → VValue
  | bool  : Bool → VValue
  | ref   : Nat → VValue
deriving DecidableEq

/-- JavaScript strict equality (the source's triple-equals): NaN is not equal
to itself, references compare by address. -/
def jsStrictEq : VValue → VValue → Bool
  | .nan, .nan => false
  | v, w => decide (v = w)

/-- The source's self-inequality test: only NaN is not strictly equal to itself. -/
def isNaNv : VValue → Bool
  | .nan => true
  | _ => false

def isRefV : VValue → Bool
  | .ref _ => true
  | _ => false

/-- `isUndef` from the util module: undefined or null. -/
def isUndefV : VValue → Bool
  | .undef => true
  | .vnull => true
  | _ => false

/-- `isPrimitive` from the util module: string, number or boolean
(NaN is a number). -/
def isPrimitiveV : VValue → Bool
  | .num _ => true
  | .str _ => true
  | .bool _ => true
  | .nan => true
  | _ => false

/-- The kind of a heap object: a plain record, a sequence, a virtual-dom node
(`VNode`, never observed), or some other non-plain object (not observable). -/
inductive ObjKind : Type where
  | plain : ObjKind
  | array : ObjKind
  | vnode : ObjKind
  | other : ObjKind
deriving DecidableEq

/-- A property slot of an object: a plain data property, a pre-existing
accessor pair (the two booleans say which halves exist, the value is the
storage that pre-existing accessor pair reads and writes), or a reactive
accessor installed by `defineReactive`, pointing at its Reactive Cell. -/
inductive PropVal : Type where
  | data : VValue → PropVal
  | accessor : Bool → Bool → VValue → PropVal
  | reactive : Nat → PropVal
deriving DecidableEq

structure PropEntry : Type where
  key : String
  val : PropVal
  configurable : Bool
deriving DecidableEq

/-- A heap object: record properties, sequence elements (used when
`kind = array`), the extensibility flag, the `_isVue` flag and the
non-enumerable back-link `__ob__` to its Observer, when present. -/
structure VObj : Type where
  kind : ObjKind
  isVue : Bool
  extensible : Bool
  props : List PropEntry
  elems : List VValue
  obId : Option Nat
deriving DecidableEq

/-- The closure state of one `defineReactive` call: the cell's private dep,
the captured `val`, whether the replaced property had a getter / a setter,
the storage the pre-existing accessor pair uses, whether a `customSetter`
was supplied, the `shallow` flag and the cached `childOb`. -/
structure Cell : Type where
  depId : Nat
  val : VValue
  hasGetter : Bool
  hasSetter : Bool
  backing : VValue
  hasHook : Bool
  shallow : Bool
  childOb : Option Nat
deriving DecidableEq

/-- An `Observer` instance: the wrapped value, its structural dep, and the
root-usage counter `vmCount`. -/
structure ObsNode : Type where
  valueRef : Nat
  depId : Nat
  vmCount : Nat
deriving DecidableEq

/-- Global state of the observer module: the heap, the reactive cells, the
observer nodes, an allocation counter, the `shouldObserve` switch, the
dependency-target stack, and logs of notifications, warnings, custom-setter
invocations and handled errors. -/
structure St : Type where
  objs : List (Nat × VObj)
  cells : List (Nat × Cell)
  nodes : List (Nat × ObsNode)
  nextId : Nat
  shouldObserve : Bool
  targetStack : List (Option Nat)
  notifyLog : List Nat
  warnCount : Nat
  hookLog : List Nat
  errorLog : List (String × String)
deriving DecidableEq

def findIn {α : Type} (a : Nat) : List (Nat × α) → Option α
  | [] => none
  | (k, x) :: rest => if k = a then some x else findIn a rest

def putIn {α : Type} (a : Nat) (x : α) : List (Nat × α) → List (Nat × α)
  | [] => [(a, x)]
  | (k, y) :: rest => if k = a then (a, x) :: rest else (k, y) :: putIn a x rest

def getObj (st : St) (a : Nat) : Option VObj := findIn a st.objs

def setObj (st : St) (a : Nat) (o : VObj) : St := { st with objs := putIn a o st.objs }

/-- The root-usage counter increment `ob.vmCount++`. -/
def bumpVm (st : St) (n : Nat) : St :=
  match findIn n st.nodes with
  | none => st
  | some nd => { st with nodes := putIn n { nd with vmCount := nd.vmCount + 1 } st.nodes }

def findProp (key : String) : List PropEntry → Option PropEntry
  | [] => none
  | p :: rest => if p.key = key then some p else findProp key rest

/-- `Object.defineProperty(obj, key, {enumerable: true, configurable: true, ..})`:
replace the slot in place, or add it at the end. -/
def putProp (key : String) (pv : PropVal) : List PropEntry → List PropEntry
  | [] => [⟨key, pv, true⟩]
  | p :: rest => if p.key = key then ⟨key, pv, true⟩ :: rest else p :: putProp key pv rest

/-- Plain assignment to an existing property slot: replace the stored
descriptor value, keeping the configurable attribute. -/
def updProp (key : String) (pv : PropVal) : List PropEntry → List PropEntry
  | [] => []
  | p :: rest => if p.key = key then ⟨key, pv, p.configurable⟩ :: rest else p :: updProp key pv rest

def setObjProp (st : St) (a : Nat) (key : String) (pv : PropVal) : St :=
  match getObj st a with
  | none => st
  | some o => setObj st a { o with props := putProp key pv o.props }

/-- Whether the descriptor found for a key has a `get` half (a property made
reactive earlier carries the installed reactive getter). -/
def descGet : PropVal → Bool
  | .data _ => false
  | .accessor g _ _ => g
  | .reactive _ => true

def descSet : PropVal → Bool
  | .data _ => false
  | .accessor _ s _ => s
  | .reactive _ => true

/-- The value the property read `obj[key]` evaluates to for an existing slot. -/
def descFetch (st : St) : PropVal → VValue
  | .data v => v
  | .accessor g _ b => if g then b else .undef
  | .reactive c =>
    match findIn c st.cells with
    | some cell => if cell.hasGetter then cell.backing else cell.val
    | none => .undef

def descBacking : PropVal → VValue
  | .data _ => .undef
  | .reactive _ => .undef
  | .accessor _ _ b => b

/-- The creation guard of `observe`: `shouldObserve`, not server rendering
(this model is the client build, so that test is false), the value is an
array or a plain object, extensible, and not a Vue instance. -/
def observableCond (st : St) (o : VObj) : Bool :=
  st.shouldObserve && (o.kind == .array || o.kind == .plain) && o.extensible && !o.isVue

/-- The mutually recursive observation entry points, as one fuel-indexed
interpreter: `observe`, `Observer.walk` over a snapshot of the keys,
`Observer.observeArray` over an element list, and `defineReactive`. -/
inductive Task : Type where
  | obs : VValue → Bool → Task
  | walkK : Nat → List String → Task
  | obsElems : List VValue → Task
  | defR : Nat → String → Option VValue → Bool → Bool → Task

def run : Nat → St → Task → St × Option Nat
  | 0, st, _ => (st, none)
  | fuel + 1, st, .obs v asRoot =>
    match v with
    | .ref a =>
      match getObj st a with
      | none => (st, none)
      | some o =>
        if o.kind = .vnode then (st, none)
        else
          match o.obId with
          | some n => ((if asRoot then bumpVm st n else st), some n)
          | none =>
            if observableCond st o then
              let n := st.nextId
              let d := st.nextId + 1
              let st1 : St := { st with nextId := st.nextId + 2,
                                        nodes := putIn n ⟨a, d, 0⟩ st.nodes }
              let st2 := setObj st1 a { o with obId := some n }
              let st3 := if o.kind = .array
                then (run fuel st2 (.obsElems o.elems)).1
                else (run fuel st2 (.walkK a (o.props.map PropEntry.key))).1
              ((if asRoot then bumpVm st3 n else st3), some n)
            else (st, none)
    | _ => (st, none)
  | _ + 1, st, .walkK _ [] => (st, none)
  | fuel + 1, st, .walkK a (k :: ks) =>
    let st1 := (run fuel st (.defR a k none false false)).1
    run fuel st1 (.walkK a ks)
  | _ + 1, st, .obsElems [] => (st, none)
  | fuel + 1, st, .obsElems (v :: vs) =>
    let st1 := (run fuel st (.obs v false)).1
    run fuel st1 (.obsElems vs)
  | fuel + 1, st, .defR a key argVal hook shallow =>
    let d := st.nextId
    let st1 : St := { st with nextId := st.nextId + 1 }
    match getObj st1 a with
    | none => (st1, none)
    | some o =>
      if (findProp key o.props).any (fun pe => !pe.configurable) then (st1, none)
      else
        let dsc := findProp key o.props
        let g := dsc.any (fun pe => descGet pe.val)
        let s := dsc.any (fun pe => descSet pe.val)
        let bck := match dsc with
          | some pe => descBacking pe.val
          | none => .undef
        let v0 : VValue :=
          match argVal with
          | some v => v
          | none =>
            if !g || s then
              (match dsc with
               | some pe => descFetch st1 pe.val
               | none => .undef)
            else .undef
        let pr := if shallow then (st1, none) else run fuel st1 (.obs v0 false)
        let cid := pr.1.nextId
        let cell : Cell := ⟨d, v0, g, s, bck, hook, shallow, pr.2⟩
        let st2 : St := { pr.1 with nextId := pr.1.nextId + 1,
                                    cells := putIn cid cell pr.1.cells }
        (setObjProp st2 a key (.reactive cid), none)

/-- `observe(value, asRootData)` from the observer module. -/
def observe (fuel : Nat) (st : St) (v : VValue) (asRoot : Bool) : St × Option Nat :=
  run fuel st (.obs v asRoot)

/-- `defineReactive(obj, key, val?, customSetter?, shallow?)`; `argVal = none`
models the two-argument call, where the initial value is left undefined. -/
def defineReactive (fuel : Nat) (st : St) (a : Nat) (key : String)
    (argVal : Option VValue) (hook shallow : Bool) : St :=
  (run fuel st (.defR a key argVal hook shallow)).1

/-- The reactive setter closure installed by `defineReactive`, acting on its
Reactive Cell: no-op on identical or doubly-NaN values, invoke the diagnostic
hook, silently reject when only a delegate getter exists, otherwise store the
value, re-observe it, and notify the cell's dep. -/
def reactiveSetter (fuel : Nat) (st : St) (cid : Nat) (newVal : VValue) : St :=
  match findIn cid st.cells with
  | none => st
  | some c =>
    let value := if c.hasGetter then c.backing else c.val
    if jsStrictEq newVal value || (isNaNv newVal && isNaNv value) then st
    else
      let st1 := if c.hasHook then { st with hookLog := st.hookLog ++ [cid] } else st
      if c.hasGetter && !c.hasSetter then st1
      else
        let c1 := if c.hasSetter then { c with backing := newVal } else { c with val := newVal }
        let st2 : St := { st1 with cells := putIn cid c1 st1.cells }
        let pr := if c.shallow then (st2, none) else run fuel st2 (.obs newVal false)
        let st3 : St := { pr.1 with cells := putIn cid { c1 with childOb := pr.2 } pr.1.cells }
        { st3 with notifyLog := st3.notifyLog ++ [c.depId] }

def jsStr : VValue → String
  | .undef => "undefined"
  | .vnull => "null"
  | .nan => "NaN"
  | .num n => toString n
  | .str s => s
  | .bool b => if b then "true" else "false"
  | .ref _ => "[object Object]"

def jsLe (v w : VValue) : Bool := decide (jsStr v ≤ jsStr w)

def insertSorted (x : VValue) : List VValue → List VValue
  | [] => [x]
  | y :: rest => if jsLe x y then x :: y :: rest else y :: insertSorted x rest

/-- The native in-place sort with the default (stringifying) comparator; the
exact resulting order is environment detail the interceptor claims never use. -/
def jsSort : List VValue → List VValue
  | [] => []
  | x :: rest => insertSorted x (jsSort rest)

def spliceStart (i : Int) (len : Nat) : Nat :=
  (if i < 0 then max ((len : Int) + i) 0 else min i (len : Int)).toNat

def jsToInt : VValue → Int
  | .num n => n
  | _ => 0

inductive ArrMethod : Type where
  | push : ArrMethod
  | pop : ArrMethod
  | shift : ArrMethod
  | unshift : ArrMethod
  | splice : ArrMethod
  | sort : ArrMethod
  | reverse : ArrMethod
deriving DecidableEq

/-- The seven underlying native array primitives (`original` in the
interceptor), with their native return values; `splice` allocates a fresh
array holding the removed elements. -/
def arrayPrimitive (st : St) (a : Nat) (m : ArrMethod) (args : List VValue) : St × VValue :=
  match getObj st a with
  | none => (st, .undef)
  | some o =>
    let es := o.elems
    match m with
    | .push => (setObj st a { o with elems := es ++ args }, .num ((es.length + args.length : Nat) : Int))
    | .pop =>
      match es.getLast? with
      | none => (st, .undef)
      | some x => (setObj st a { o with elems := es.dropLast }, x)
    | .shift =>
      match es with
      | [] => (st, .undef)
      | x :: rest => (setObj st a { o with elems := rest }, x)
    | .unshift => (setObj st a { o with elems := args ++ es }, .num ((args.length + es.length : Nat) : Int))
    | .splice =>
      let len := es.length
      let start := spliceStart (jsToInt (args.headD .undef)) len
      let dc : Nat := match args with
        | [] => 0
        | [_] => len - start
        | _ :: cnt :: _ => (min (max (jsToInt cnt) 0) ((len : Int) - (start : Int))).toNat
      let items := args.drop 2
      let removed := (es.drop start).take dc
      let rid := st.nextId
      let es2 := es.take start ++ items ++ es.drop (start + dc)
      ({ st with nextId := rid + 1,
                 objs := putIn a { o with elems := es2 }
                           (putIn rid ⟨.array, false, true, [], removed, none⟩ st.objs) },
       .ref rid)
    | .sort => (setObj st a { o with elems := jsSort es }, .ref a)
    | .reverse => (setObj st a { o with elems := es.reverse }, .ref a)

/-- The `inserted` computation inside the interceptor: arguments of push and
unshift, splice arguments from the third on. -/
def insertedOf (m : ArrMethod) (args : List VValue) : List VValue :=
  match m with
  | .push => args
  | .unshift => args
  | .splice => args.drop 2
  | _ => []

/-- The intercepting wrapper installed over the seven mutating sequence
methods: run the original primitive, observe any inserted elements, notify
the owning node's structural dep once, and return the primitive's result. -/
def mutator (fuel : Nat) (st : St) (a : Nat) (m : ArrMethod) (args : List VValue) : St × VValue :=
  let pr := arrayPrimitive st a m args
  match getObj pr.1 a with
  | none => pr
  | some o =>
    match o.obId with
    | none => pr
    | some n =>
      match findIn n pr.1.nodes with
      | none => pr
      | some nd =>
        let st2 := (run fuel pr.1 (.obsElems (insertedOf m args))).1
        ({ st2 with notifyLog := st2.notifyLog ++ [nd.depId] }, pr.2)

/-- A property key passed to `set`: either a string key or a numeric index. -/
inductive JsKey : Type where
  | str : String → JsKey
  | idx : Nat → JsKey
deriving DecidableEq

def keyStr : JsKey → String
  | .str s => s
  | .idx n => toString n

/-- `isValidArrayIndex`. -/
def validIdx : JsKey → Bool
  | .idx _ => true
  | .str s => s.toNat?.isSome

def keyIdx : JsKey → Nat
  | .idx n => n
  | .str s => s.toNat?.getD 0

def objectProtoKeys : List String :=
  ["constructor", "hasOwnProperty", "isPrototypeOf", "propertyIsEnumerable",
   "toLocaleString", "toString", "valueOf"]

/-- Own-membership part of the `key in target` test. -/
def hasOwnKey (o : VObj) (key : JsKey) : Bool :=
  if o.kind == .array then
    match key with
    | .idx i => i < o.elems.length
    | .str s =>
      match s.toNat? with
      | some i => i < o.elems.length
      | none => s == "length" || (findProp s o.props).isSome
  else
    (findProp (keyStr key) o.props).isSome

/-- Plain JavaScript assignment `target[key] = val`, routed through the
reactive setter when the property was made reactive. -/
def assignProp (fuel : Nat) (st : St) (a : Nat) (key : JsKey) (v : VValue) : St :=
  match getObj st a with
  | none => st
  | some o =>
    if o.kind == .array then
      match key with
      | .idx i =>
        let es := if i < o.elems.length then o.elems
                  else o.elems ++ List.replicate (i + 1 - o.elems.length) .undef
        setObj st a { o with elems := es.set i v }
      | .str s => setObj st a { o with props := putProp s (.data v) o.props }
    else
      match findProp (keyStr key) o.props with
      | some pe =>
        match pe.val with
        | .reactive c => reactiveSetter fuel st c v
        | .data _ => setObj st a { o with props := updProp (keyStr key) (.data v) o.props }
        | .accessor g s2 _ =>
          if s2 then setObj st a { o with props := updProp (keyStr key) (.accessor g s2 v) o.props }
          else st
      | none => setObj st a { o with props := o.props ++ [⟨keyStr key, .data v, true⟩] }

/-- `set(target, key, val)` — the explicit mutation entry `Vue.set`. -/
def set (fuel : Nat) (st : St) (target : VValue) (key : JsKey) (v : VValue) : St × VValue :=
  let st0 := if isUndefV target || isPrimitiveV target
             then { st with warnCount := st.warnCount + 1 } else st
  match target with
  | .ref a =>
    match getObj st0 a with
    | none => (st0, v)
    | some o =>
      if o.kind == .array && validIdx key then
        let i := keyIdx key
        let es := if o.elems.length < i
                  then o.elems ++ List.replicate (i - o.elems.length) .undef
                  else o.elems
        let st1 := setObj st0 a { o with elems := es }
        ((mutator fuel st1 a .splice [.num (i : Int), .num 1, v]).1, v)
      else if hasOwnKey o key && !(objectProtoKeys.contains (keyStr key)) then
        (assignProp fuel st0 a key v, v)
      else
        let vm : Bool :=
          match o.obId with
          | some n =>
            (match findIn n st0.nodes with
             | some nd => nd.vmCount != 0
             | none => false)
          | none => false
        if o.isVue || vm then ({ st0 with warnCount := st0.warnCount + 1 }, v)
        else
          match o.obId with
          | none => (assignProp fuel st0 a key v, v)
          | some n =>
            match findIn n st0.nodes with
            | none => (st0, v)
            | some nd =>
              let st1 := (run fuel st0 (.defR nd.valueRef (keyStr key) (some v) false false)).1
              ({ st1 with notifyLog := st1.notifyLog ++ [nd.depId] }, v)
  | _ => (st0, v)

/-- `toggleObserving(value)`. -/
def toggleObserving (st : St) (b : Bool) : St := { st with shouldObserve := b }

/-- Modelled from the spec: the Dependency Target Pointer's push operation
(the dep module holding `pushTarget` is not among the provided sources);
pushing `none` disables dependency collection during the call. -/
def pushTarget (st : St) (t : Option Nat) : St := { st with targetStack := t :: st.targetStack }

/-- Modelled from the spec: the Dependency Target Pointer's pop operation
(the dep module holding `popTarget` is not among the provided sources). -/
def popTarget (st : St) : St := { st with targetStack := st.targetStack.tail }

/-- Modelled from the spec: the external error handler, which receives the
error together with a phase label (its module is not among the provided
sources); recorded as an (error, phase label) entry. -/
def handleError (st : St) (e : String) (phase : String) : St :=
  { st with errorLog := st.errorLog ++ [(e, phase)] }

/-- `getData(data, vm)` from the state module: push a blank dependency target,
invoke the data function, route any exception to `handleError` tagged with
the data phase label and fall back to a fresh empty object, and always pop
the target.  The data function is modelled by its outcome: a value, or the
message of the exception it throws. -/
def getData (st : St) (outcome : Except String VValue) : St × VValue :=
  let st1 := pushTarget st none
  match outcome with
  | .ok v => (popTarget st1, v)
  | .error e =>
    let st2 := handleError st1 e "data()"
    let rid := st2.nextId
    let st3 : St := { st2 with
      nextId := rid + 1,
      objs := putIn rid ⟨.plain, false, true, [], [], none⟩ st2.objs }
    (popTarget st3, .ref rid)

/-- A Dependency Set as seen by the watcher protocol: its subscriber list,
in insertion order, duplicates suppressed. -/
structure WDep : Type where
  subs : List Nat
deriving DecidableEq

/-- Modelled from the spec: the Watcher record of the watcher module (not
among the provided sources) — last value, dirty flag, lazy mode, the held
Dependency Set references, and the evaluator, modelled by the value it would
produce when invoked (`evalValue`) plus an invocation counter. -/
structure Watcher : Type where
  value : VValue
  dirty : Bool
  lazyMode : Bool
  deps : List Nat
  evalCount : Nat
  evalValue : VValue
deriving DecidableEq

/-- State for the watcher protocol: the watchers, the Dependency Sets they
may hold, and the current dependency target. -/
structure WSt : Type where
  watchers : List (Nat × Watcher)
  wdeps : List (Nat × WDep)
  target : Option Nat
deriving DecidableEq

/-- Modelled from the spec: `Watcher.evaluate` — `this.value = this.get();
this.dirty = false`; invoking the evaluator is counted. -/
def wEvaluate (st : WSt) (wid : Nat) : WSt :=
  match findIn wid st.watchers with
  | none => st
  | some w =>
    let w1 : Watcher := { w with value := w.evalValue, dirty := false, evalCount := w.evalCount + 1 }
    { st with watchers := putIn wid w1 st.watchers }

/-- Modelled from the spec: `dep.depend()` — register the current target in
this Dependency Set, suppressing duplicates; no-op without an active target. -/
def depDepend (st : WSt) (d : Nat) : WSt :=
  match st.target with
  | none => st
  | some t =>
    match findIn d st.wdeps with
    | none => st
    | some wd =>
      if t ∈ wd.subs then st
      else { st with wdeps := putIn d ⟨wd.subs ++ [t]⟩ st.wdeps }

/-- Modelled from the spec: `Watcher.depend` — register the current target in
every Dependency Set this watcher holds. -/
def wDepend (st : WSt) (wid : Nat) : WSt :=
  match findIn wid st.watchers with
  | none => st
  | some w => w.deps.foldl depDepend st

/-- The getter produced by `createComputedGetter` (state module): evaluate
when dirty, let an active outer target inherit this watcher's subscriptions,
and return the cached value. -/
def computedGetter (st : WSt) (wid : Nat) : WSt × VValue :=
  match findIn wid st.watchers with
  | none => (st, .undef)
  | some w =>
    let st1 := if w.dirty then wEvaluate st wid else st
    let st2 := if st1.target.isSome then wDepend st1 wid else st1
    match findIn wid st2.watchers with
    | some w2 => (st2, w2.value)
    | none => (st2, .undef)

/-- The components of the state that the observation interpreter never
touches: the switch, the target stack, and the four logs. -/
def quiet (st : St) : Bool × List (Option Nat) × List Nat × Nat × List Nat × List (String × String) :=
  (st.shouldObserve, st.targetStack, st.notifyLog, st.warnCount, st.hookLog, st.errorLog)

/-- The concrete scenario of claim C1: an observed empty record at address 0
whose Observed Node has a nonzero root-usage counter. -/
def rootObj : VObj := ⟨.plain, false, true, [], [], some 0⟩

def rootSt : St := ⟨[(0, rootObj)], [], [(0, ⟨0, 1, 1⟩)], 2, true, [], [], 0, [], []⟩

/-- A record whose key has both a delegate getter and a delegate setter whose
storage holds a reference to a fresh plain object. -/
def c2obj : VObj := ⟨.plain, false, true, [⟨"k", .accessor true true (.ref 1), true⟩], [], none⟩

def c2tgt : VObj := ⟨.plain, false, true, [], [], none⟩

def c2st : St := ⟨[(0, c2obj), (1, c2tgt)], [], [], 2, true, [], [], 0, [], []⟩

def c2pe : PropEntry := ⟨"k", .accessor true true (.ref 1), true⟩

/-- A dirty lazy watcher holding one Dependency Set, read while watcher 7 is
the active target. -/
def c3w : Watcher := ⟨.undef, true, true, [0], 0, .num 3⟩

def c3st : WSt := ⟨[(1, c3w)], [(0, ⟨[]⟩)], some 7⟩

/-- The observed sequence of the spec's interceptor test. -/
def c4arr : VObj := ⟨.array, false, true, [], [.num 1, .num 2], some 1⟩

def c4st : St := ⟨[(0, c4arr)], [], [(1, ⟨0, 2, 0⟩)], 3, true, [], [], 0, [], []⟩

/-- A cell already holding NaN, with a diagnostic hook installed. -/
def c5cell : Cell := ⟨5, .nan, false, false, .undef, true, false, none⟩

def c5st : St := ⟨[], [(0, c5cell)], [], 6, true, [], [], 0, [], []⟩

/-- A cell whose replaced property had a getter and no setter. -/
def c6cell : Cell := ⟨4, .undef, true, false, .num 1, true, false, none⟩

def c6st : St := ⟨[], [(0, c6cell)], [], 5, true, [], [], 0, [], []⟩

/-- A fresh observable plain object. -/
def c8obj : VObj := ⟨.plain, false, true, [], [], none⟩

def c8st : St := ⟨[(0, c8obj)], [], [], 1, true, [], [], 0, [], []⟩

/-- A non-extensible plain object, which observe must leave unwrapped. -/
def c9obj : VObj := ⟨.plain, false, false, [], [], none⟩

def c9st : St := ⟨[(0, c9obj)], [], [], 1, true, [], [], 0, [], []⟩

/-- An already-observed object whose node has root-usage counter 2. -/
def c10obj : VObj := ⟨.plain, false, true, [], [], some 0⟩

def c10st : St := ⟨[(0, c10obj)], [], [(0, ⟨0, 1, 2⟩)], 2, true, [], [], 0, [], []⟩

theorem findIn_putIn_same {α : Type} (a : Nat) (x : α) (l : List (Nat × α)) :
    findIn a (putIn a x l) = some x := by
  induction l with
  | nil => simp [findIn, putIn]
  | cons p rest ih =>
    obtain ⟨k, y⟩ := p
    by_cases h : k = a
    · simp [putIn, h, findIn]
    · simp [putIn, h, findIn, ih]

theorem findIn_putIn_other {α : Type} (a b : Nat) (x : α) (l : List (Nat × α)) (h : a ≠ b) :
    findIn a (putIn b x l) = findIn a l := by
  induction l with
  | nil =>
    simp only [putIn, findIn]
    rw [if_neg (fun hba => h hba.symm)]
  | cons p rest ih =>
    obtain ⟨k, y⟩ := p
    by_cases hk : k = b
    · subst hk
      simp only [putIn, if_pos rfl, findIn]
      rw [if_neg (fun hba => h hba.symm), if_neg (fun hba => h hba.symm)]
    · simp only [putIn, if_neg hk, findIn]
      by_cases hka : k = a
      · simp [hka]
      · simp [hka, ih]

theorem getObj_setObj_same (st : St) (a : Nat) (o : VObj) :
    getObj (setObj st a o) a = some o := by
  simp [getObj, setObj, findIn_putIn_same]

theorem getObj_setObj_other (st : St) (a b : Nat) (o : VObj) (h : a ≠ b) :
    getObj (setObj st b o) a = getObj st a := by
  simp [getObj, setObj, findIn_putIn_other _ _ _ _ h]

theorem bumpVm_objs (st : St) (n : Nat) : (bumpVm st n).objs = st.objs := by
  unfold bumpVm
  cases findIn n st.nodes <;> rfl

theorem getObj_bumpVm (st : St) (n a : Nat) : getObj (bumpVm st n) a = getObj st a := by
  simp [getObj, bumpVm_objs]

theorem quiet_setObj (st : St) (a : Nat) (o : VObj) : quiet (setObj st a o) = quiet st := rfl

theorem quiet_bumpVm (st : St) (n : Nat) : quiet (bumpVm st n) = quiet st := by
  unfold bumpVm
  cases findIn n st.nodes <;> rfl

theorem quiet_setObjProp (st : St) (a : Nat) (key : String) (pv : PropVal) :
    quiet (setObjProp st a key pv) = quiet st := by
  unfold setObjProp
  cases getObj st a <;> rfl

theorem quiet_mk4 (s : St) (obl : List (Nat × VObj)) (cel : List (Nat × Cell))
    (nol : List (Nat × ObsNode)) (i : Nat) :
    quiet ⟨obl, cel, nol, i, s.shouldObserve, s.targetStack, s.notifyLog,
           s.warnCount, s.hookLog, s.errorLog⟩ = quiet s := rfl

/-- The observation interpreter only allocates and rewires the heap; it never
notifies, warns, runs a hook, toggles the switch, or touches the target stack. -/
theorem run_quiet (fuel : Nat) : ∀ (st : St) (t : Task), quiet (run fuel st t).1 = quiet st := by
  induction fuel with
  | zero => intro st t; rfl
  | succ n ih =>
    intro st t
    cases t with
    | obs v asRoot =>
      cases v with
      | ref a =>
        simp only [run]
        cases hobj : getObj st a with
        | none => rfl
        | some o =>
          simp only []
          by_cases hk : o.kind = .vnode
          · simp [hk]
          · simp only [if_neg hk]
            cases hob : o.obId with
            | some m =>
              simp only []
              cases asRoot <;> simp [quiet_bumpVm]
            | none =>
              simp only []
              by_cases hc : observableCond st o
              · simp only [hc, if_true]
                simp [apply_ite quiet, quiet_bumpVm, ih, quiet_setObj, quiet_mk4]
              · simp [hc]
      | undef => rfl
      | vnull => rfl
      | nan => rfl
      | num m => rfl
      | str s => rfl
      | bool b => rfl
    | walkK a ks =>
      cases ks with
      | nil => rfl
      | cons k rest =>
        simp only [run]
        rw [ih, ih]
    | obsElems vs =>
      cases vs with
      | nil => rfl
      | cons v rest =>
        simp only [run]
        rw [ih, ih]
    | defR a key argVal hook shallow =>
      simp only [run]
      cases hobj : getObj { st with nextId := st.nextId + 1 } a with
      | none => rfl
      | some o =>
        simp only []
        by_cases hcfg : (findProp key o.props).any (fun pe => !pe.configurable)
        · simp [hcfg, quiet_mk4]
        · simp [hcfg, quiet_setObjProp, quiet_mk4, ih, apply_ite quiet, apply_ite Prod.fst]

theorem setObjProp_keepsOb (st : St) (b : Nat) (key : String) (pv : PropVal)
    (a : Nat) (o : VObj) (n : Nat) (k : ObjKind) (ho : getObj st a = some o)
    (hn : o.obId = some n) (hk : o.kind = k) :
    ∃ o2, getObj (setObjProp st b key pv) a = some o2 ∧ o2.obId = some n ∧ o2.kind = k := by
  unfold setObjProp
  cases hb : getObj st b with
  | none => exact ⟨o, ho, hn, hk⟩
  | some ob =>
    by_cases hab : a = b
    · subst hab
      rw [ho] at hb
      cases hb
      exact ⟨_, getObj_setObj_same _ _ _, hn, hk⟩
    · refine ⟨o, ?_, hn, hk⟩
      rw [getObj_setObj_other _ _ _ _ hab]
      exact ho

/-- The observation interpreter never clears or replaces an existing
back-link: an object already carrying an Observed Node keeps that node (and
its kind) through any amount of observation work. -/
theorem run_keepsOb (fuel : Nat) : ∀ (st : St) (t : Task) (a : Nat) (o : VObj) (n : Nat),
    getObj st a = some o → o.obId = some n →
    ∃ o2, getObj (run fuel st t).1 a = some o2 ∧ o2.obId = some n ∧ o2.kind = o.kind := by
  induction fuel with
  | zero => intro st t a o n ho hn; exact ⟨o, ho, hn, rfl⟩
  | succ m ih =>
    intro st t a o n ho hn
    cases t with
    | obs v asRoot =>
      cases v with
      | ref b =>
        simp only [run]
        cases hobj : getObj st b with
        | none => exact ⟨o, ho, hn, rfl⟩
        | some ob =>
          simp only []
          by_cases hk : ob.kind = .vnode
          · simp only [if_pos hk]
            exact ⟨o, ho, hn, rfl⟩
          · simp only [if_neg hk]
            cases hob : ob.obId with
            | some p =>
              simp only []
              refine ⟨o, ?_, hn, rfl⟩
              cases asRoot <;> simp [getObj_bumpVm, ho]
            | none =>
              simp only []
              by_cases hc : observableCond st ob
              · simp only [hc, if_true]
                have hab : a ≠ b := by
                  intro h
                  subst h
                  rw [ho] at hobj
                  cases hobj
                  rw [hn] at hob
                  cases hob
                have h1 : getObj (setObj { st with
                    nextId := st.nextId + 2,
                    nodes := putIn st.nextId ⟨b, st.nextId + 1, 0⟩ st.nodes } b
                    { ob with obId := some st.nextId }) a = some o := by
                  rw [getObj_setObj_other _ _ _ _ hab]
                  exact ho
                by_cases hka : ob.kind = ObjKind.array
                · rw [if_pos hka]
                  obtain ⟨o2, h2, hn2, hk2⟩ := ih _ (.obsElems ob.elems) a o n h1 hn
                  refine ⟨o2, ?_, hn2, hk2⟩
                  cases asRoot <;> simp [getObj_bumpVm, h2]
                · rw [if_neg hka]
                  obtain ⟨o2, h2, hn2, hk2⟩ :=
                    ih _ (.walkK b (ob.props.map PropEntry.key)) a o n h1 hn
                  refine ⟨o2, ?_, hn2, hk2⟩
                  cases asRoot <;> simp [getObj_bumpVm, h2]
              · rw [if_neg hc]
                exact ⟨o, ho, hn, rfl⟩
      | undef => exact ⟨o, ho, hn, rfl⟩
      | vnull => exact ⟨o, ho, hn, rfl⟩
      | nan => exact ⟨o, ho, hn, rfl⟩
      | num k => exact ⟨o, ho, hn, rfl⟩
      | str s => exact ⟨o, ho, hn, rfl⟩
      | bool b => exact ⟨o, ho, hn, rfl⟩
    | walkK b ks =>
      cases ks with
      | nil => exact ⟨o, ho, hn, rfl⟩
      | cons k rest =>
        simp only [run]
        obtain ⟨o1, h1, hn1, hk1⟩ := ih st (.defR b k none false false) a o n ho hn
        obtain ⟨o2, h2, hn2, hk2⟩ := ih _ (.walkK b rest) a o1 n h1 hn1
        exact ⟨o2, h2, hn2, hk2.trans hk1⟩
    | obsElems vs =>
      cases vs with
      | nil => exact ⟨o, ho, hn, rfl⟩
      | cons v rest =>
        simp only [run]
        obtain ⟨o1, h1, hn1, hk1⟩ := ih st (.obs v false) a o n ho hn
        obtain ⟨o2, h2, hn2, hk2⟩ := ih _ (.obsElems rest) a o1 n h1 hn1
        exact ⟨o2, h2, hn2, hk2.trans hk1⟩
    | defR b key argVal hook shallow =>
      simp only [run]
      cases hobj : getObj { st with nextId := st.nextId + 1 } b with
      | none => exact ⟨o, ho, hn, rfl⟩
      | some ob =>
        simp only []
        by_cases hcfg : (findProp key ob.props).any (fun pe => !pe.configurable)
        · simp only [hcfg, if_true]
          exact ⟨o, ho, hn, rfl⟩
        · simp only [hcfg, Bool.false_eq_true, if_false]
          cases shallow with
          | true =>
            simp only [if_true]
            exact setObjProp_keepsOb _ b key _ a o n _ ho hn rfl
          | false =>
            simp only [Bool.false_eq_true, if_false]
            obtain ⟨o1, h1, hn1, hk1⟩ := ih { st with nextId := st.nextId + 1 }
              (.obs (match argVal with
                     | some v => v
                     | none =>
                       if !(findProp key ob.props).any (fun pe => descGet pe.val)
                          || (findProp key ob.props).any (fun pe => descSet pe.val) then
                         (match findProp key ob.props with
                          | some pe => descFetch { st with nextId := st.nextId + 1 } pe.val
                          | none => .undef)
                       else .undef) false) a o n ho hn
            exact setObjProp_keepsOb _ b key _ a o1 n _ h1 hn1 hk1

theorem run_notifyLog (fuel : Nat) (st : St) (t : Task) :
    (run fuel st t).1.notifyLog = st.notifyLog :=
  congrArg (fun q => q.2.2.1) (run_quiet fuel st t)

/-- C7: if the data function throws during the very first data evaluation the
error is forwarded to the external handler tagged with the data-phase label
and the fallback result is a fresh empty record; whether the call returns or
throws, the pushed dependency target is popped again. -/
theorem claim_C7 (st : St) (v : VValue) (e : String) :
    (getData st (.ok v)).1.targetStack = st.targetStack ∧
    (getData st (.ok v)).2 = v ∧
    (getData st (.error e)).1.targetStack = st.targetStack ∧
    (getData st (.error e)).1.errorLog = st.errorLog ++ [(e, "data()")] ∧
    (getData st (.error e)).2 = .ref st.nextId ∧
    getObj (getData st (.error e)).1 st.nextId = some ⟨.plain, false, true, [], [], none⟩ := by
  refine ⟨rfl, rfl, rfl, rfl, rfl, ?_⟩
  simp [getData, getObj, pushTarget, handleError, popTarget, findIn_putIn_same]

/-- C5: writing a value strictly equal to the cell's current value, or
writing NaN over NaN, is a complete no-op of the reactive setter: the whole
state is unchanged, so the value is kept, the hook does not fire and the
dep receives zero notifications. -/
theorem claim_C5 (fuel : Nat) (st : St) (cid : Nat) (c : Cell) (newVal : VValue)
    (hc : findIn cid st.cells = some c)
    (hnoop : (jsStrictEq newVal (if c.hasGetter then c.backing else c.val)
              || (isNaNv newVal && isNaNv (if c.hasGetter then c.backing else c.val))) = true) :
    reactiveSetter fuel st cid newVal = st := by
  unfold reactiveSetter
  rw [hc]
  simp only [hnoop, if_true]

/-- C6: on a cell whose replaced property had a getter but no setter, a write
of a genuinely different value is rejected: no cell is changed (value and
child node kept) and no notification is delivered. -/
theorem claim_C6 (fuel : Nat) (st : St) (cid : Nat) (c : Cell) (newVal : VValue)
    (hc : findIn cid st.cells = some c)
    (hg : c.hasGetter = true)
    (hs : c.hasSetter = false)
    (hdiff : (jsStrictEq newVal (if c.hasGetter then c.backing else c.val)
              || (isNaNv newVal && isNaNv (if c.hasGetter then c.backing else c.val))) = false) :
    (reactiveSetter fuel st cid newVal).cells = st.cells ∧
    (reactiveSetter fuel st cid newVal).notifyLog = st.notifyLog := by
  unfold reactiveSetter
  rw [hc]
  simp only [hdiff, Bool.false_eq_true, if_false, hg, hs, Bool.not_false, Bool.and_self, if_true]
  cases c.hasHook <;> exact ⟨by split <;> rfl, by split <;> rfl⟩

/-- C9: `observe` on a non-composite value, a virtual-dom node, with
observation globally disabled, on a non-extensible value, or on a Vue
instance — none of which already carries an Observed Node — returns nothing
and leaves the state (hence the value) untouched. -/
theorem claim_C9 (fuel : Nat) (st : St) (v : VValue) (asRoot : Bool)
    (h : isRefV v = false ∨
         ∃ a o, v = .ref a ∧ getObj st a = some o ∧ o.obId = none ∧
           (o.kind = .vnode ∨ st.shouldObserve = false ∨
            (o.kind ≠ .array ∧ o.kind ≠ .plain) ∨ o.extensible = false ∨ o.isVue = true)) :
    observe fuel st v asRoot = (st, none) := by
  cases fuel with
  | zero => rfl
  | succ m =>
    cases h with
    | inl h1 =>
      cases v with
      | ref a => simp [isRefV] at h1
      | undef => rfl
      | vnull => rfl
      | nan => rfl
      | num k => rfl
      | str s => rfl
      | bool b => rfl
    | inr h2 =>
      obtain ⟨a, o, rfl, ho, hob, hcond⟩ := h2
      show run (m + 1) st (.obs (.ref a) asRoot) = (st, none)
      by_cases hk : o.kind = ObjKind.vnode
      · simp only [run, ho, if_pos hk]
      · have hcf : ¬ observableCond st o = true := by
          unfold observableCond
          rcases hcond with h | h | ⟨ha, hp⟩ | h | h
          · exact absurd h hk
          · simp [h]
          · cases hko : o.kind <;> simp_all
          · simp [h]
          · simp [h]
        simp only [run, ho, if_neg hk, hob, if_neg hcf]

/-- C10: a value that already carries an Observed Node gets that cached node
back from `observe` even while observation is globally disabled through
`toggleObserving(false)`, and a call with `asRootData = true` additionally
increments the node's root-usage counter. -/
theorem claim_C10 (fuel : Nat) (st : St) (a : Nat) (o : VObj) (n : Nat) (nd : ObsNode)
    (hf : 1 ≤ fuel)
    (ho : getObj st a = some o)
    (hk : o.kind ≠ ObjKind.vnode)
    (hob : o.obId = some n)
    (hnd : findIn n st.nodes = some nd) :
    observe fuel (toggleObserving st false) (.ref a) true =
      ({ toggleObserving st false with
         nodes := putIn n { nd with vmCount := nd.vmCount + 1 } st.nodes }, some n) := by
  obtain ⟨m, rfl⟩ : ∃ m, fuel = m + 1 := ⟨fuel - 1, (Nat.succ_pred_eq_of_pos hf).symm⟩
  have ho2 : getObj (toggleObserving st false) a = some o := ho
  show run (m + 1) (toggleObserving st false) (.obs (.ref a) true) = _
  simp only [run, ho2, if_neg hk, hob, if_true]
  unfold bumpVm
  have hnd2 : findIn n (toggleObserving st false).nodes = some nd := hnd
  rw [hnd2]
  rfl

/-- C8: `observe` is idempotent — calling it twice on the same value returns
the identical Observed Node (the second call answers from the back-link
cached by the first, and when the first call returns nothing so does the
second). -/
theorem claim_C8 (fuel1 fuel2 : Nat) (st : St) (v : VValue) (r1 r2 : Bool)
    (h1 : 1 ≤ fuel1) (h2 : 1 ≤ fuel2) :
    (observe fuel2 (observe fuel1 st v r1).1 v r2).2 = (observe fuel1 st v r1).2 := by
  obtain ⟨m1, rfl⟩ : ∃ m, fuel1 = m + 1 := ⟨fuel1 - 1, (Nat.succ_pred_eq_of_pos h1).symm⟩
  obtain ⟨m2, rfl⟩ : ∃ m, fuel2 = m + 1 := ⟨fuel2 - 1, (Nat.succ_pred_eq_of_pos h2).symm⟩
  cases v with
  | undef => rfl
  | vnull => rfl
  | nan => rfl
  | num k => rfl
  | str s => rfl
  | bool b => rfl
  | ref a =>
    show (run (m2 + 1) (run (m1 + 1) st (.obs (.ref a) r1)).1 (.obs (.ref a) r2)).2
       = (run (m1 + 1) st (.obs (.ref a) r1)).2
    cases hobj : getObj st a with
    | none =>
      have e1 : run (m1 + 1) st (.obs (.ref a) r1) = (st, none) := by
        simp [run, hobj]
      rw [e1]
      simp [run, hobj]
    | some o =>
      by_cases hk : o.kind = ObjKind.vnode
      · have e1 : run (m1 + 1) st (.obs (.ref a) r1) = (st, none) := by
          simp [run, hobj, hk]
        rw [e1]
        simp [run, hobj, hk]
      · cases hob : o.obId with
        | some n =>
          have e1 : run (m1 + 1) st (.obs (.ref a) r1)
              = ((if r1 then bumpVm st n else st), some n) := by
            simp [run, hobj, hk, hob]
          rw [e1]
          have ho2 : getObj (if r1 then bumpVm st n else st) a = some o := by
            cases r1 <;> simp [getObj_bumpVm, hobj]
          simp [run, ho2, hk, hob]
        | none =>
          by_cases hc : observableCond st o
          · have key : ∀ (S : St),
                (∃ o2, getObj S a = some o2 ∧ o2.obId = some st.nextId ∧ o2.kind = o.kind) →
                (run (m2 + 1) S (.obs (.ref a) r2)).2 = some st.nextId := by
              intro S hS
              obtain ⟨o2, hgo, hid, hkd⟩ := hS
              have hk2 : ¬ o2.kind = ObjKind.vnode := by rw [hkd]; exact hk
              simp [run, hgo, hk2, hid]
            have hval : (run (m1 + 1) st (.obs (.ref a) r1)).2 = some st.nextId := by
              simp [run, hobj, hk, hob, hc]
            have hpres : ∃ o2, getObj (run (m1 + 1) st (.obs (.ref a) r1)).1 a = some o2 ∧
                o2.obId = some st.nextId ∧ o2.kind = o.kind := by
              simp only [run, hobj, if_neg hk, hob, hc, if_true]
              have base := getObj_setObj_same { st with
                  nextId := st.nextId + 2,
                  nodes := putIn st.nextId ⟨a, st.nextId + 1, 0⟩ st.nodes } a
                  { o with obId := some st.nextId }
              by_cases hka : o.kind = ObjKind.array
              · rw [if_pos hka]
                obtain ⟨o2, hg2, hi2, hkk2⟩ := run_keepsOb m1 _ (.obsElems o.elems) a
                  { o with obId := some st.nextId } st.nextId base rfl
                refine ⟨o2, ?_, hi2, hkk2⟩
                cases r1 <;> simp [getObj_bumpVm, hg2]
              · rw [if_neg hka]
                obtain ⟨o2, hg2, hi2, hkk2⟩ := run_keepsOb m1 _
                  (.walkK a (o.props.map PropEntry.key)) a
                  { o with obId := some st.nextId } st.nextId base rfl
                refine ⟨o2, ?_, hi2, hkk2⟩
                cases r1 <;> simp [getObj_bumpVm, hg2]
            rw [hval]
            exact key _ hpres
          · have e1 : run (m1 + 1) st (.obs (.ref a) r1) = (st, none) := by
              simp [run, hobj, hk, hob, hc]
            rw [e1]
            simp [run, hobj, hk, hob, hc]

theorem observe_undef (fuel : Nat) (st : St) :
    run fuel st (.obs .undef false) = (st, none) := by
  cases fuel <;> rfl

theorem setObjProp_cells (st : St) (a : Nat) (key : String) (pv : PropVal) :
    (setObjProp st a key pv).cells = st.cells := by
  unfold setObjProp
  cases getObj st a <;> rfl

theorem setObjProp_nodes (st : St) (a : Nat) (key : String) (pv : PropVal) :
    (setObjProp st a key pv).nodes = st.nodes := by
  unfold setObjProp
  cases getObj st a <;> rfl

/-- C2: in a two-argument `defineReactive` call, a property with a getter and
no setter keeps its initial value unfetched (the cell's captured value stays
undefined) and is not deep-observed (no node is created, no child node is
cached); with both a getter and a setter the initial value is fetched through
the pre-existing accessor pair and recursively observed, caching the
resulting child node. -/
theorem claim_C2 (fuel : Nat) (st : St) (a : Nat) (o : VObj) (key : String)
    (pe : PropEntry) (s : Bool) (b : VValue)
    (ho : getObj st a = some o)
    (hp : findProp key o.props = some pe)
    (hpv : pe.val = .accessor true s b)
    (hcfg : pe.configurable = true) :
    (s = false →
      (defineReactive (fuel + 1) st a key none false false).nodes = st.nodes ∧
      findIn (st.nextId + 1) (defineReactive (fuel + 1) st a key none false false).cells =
        some ⟨st.nextId, .undef, true, false, b, false, false, none⟩) ∧
    (s = true →
      (defineReactive (fuel + 1) st a key none false false).nodes =
        (run fuel { st with nextId := st.nextId + 1 } (.obs b false)).1.nodes ∧
      findIn (run fuel { st with nextId := st.nextId + 1 } (.obs b false)).1.nextId
        (defineReactive (fuel + 1) st a key none false false).cells =
        some ⟨st.nextId, b, true, true, b, false, false,
              (run fuel { st with nextId := st.nextId + 1 } (.obs b false)).2⟩) := by
  have ho1 : getObj { st with nextId := st.nextId + 1 } a = some o := ho
  have hp1 : findProp key o.props = some pe := hp
  constructor
  · intro hs
    subst hs
    unfold defineReactive
    simp only [run, ho1, hp1, hpv, hcfg, Option.any_some, descGet, descSet, descBacking,
      descFetch, Bool.not_true, Bool.false_eq_true, if_false, Bool.or_false, observe_undef,
      setObjProp_cells, setObjProp_nodes]
    exact ⟨trivial, findIn_putIn_same _ _ _⟩
  · intro hs
    subst hs
    unfold defineReactive
    simp only [run, ho1, hp1, hpv, hcfg, Option.any_some, descGet, descSet, descBacking,
      descFetch, Bool.not_true, Bool.false_eq_true, if_false, Bool.false_or, if_true,
      setObjProp_cells, setObjProp_nodes]
    exact ⟨trivial, findIn_putIn_same _ _ _⟩

theorem arrayPrimitive_nodes (st : St) (a : Nat) (m : ArrMethod) (args : List VValue) :
    (arrayPrimitive st a m args).1.nodes = st.nodes := by
  simp only [arrayPrimitive]
  repeat' split
  all_goals rfl

theorem arrayPrimitive_notifyLog (st : St) (a : Nat) (m : ArrMethod) (args : List VValue) :
    (arrayPrimitive st a m args).1.notifyLog = st.notifyLog := by
  simp only [arrayPrimitive]
  repeat' split
  all_goals rfl

theorem arrayPrimitive_keepsOb (st : St) (a : Nat) (m : ArrMethod) (args : List VValue)
    (o : VObj) (ho : getObj st a = some o) :
    ∃ o1, getObj (arrayPrimitive st a m args).1 a = some o1 ∧ o1.obId = o.obId := by
  simp only [arrayPrimitive, ho]
  cases m
  case push => exact ⟨_, getObj_setObj_same _ _ _, rfl⟩
  case pop =>
    cases o.elems.getLast? with
    | none => exact ⟨o, ho, rfl⟩
    | some x => exact ⟨_, getObj_setObj_same _ _ _, rfl⟩
  case shift =>
    cases o.elems with
    | nil => exact ⟨o, ho, rfl⟩
    | cons x rest => exact ⟨_, getObj_setObj_same _ _ _, rfl⟩
  case unshift => exact ⟨_, getObj_setObj_same _ _ _, rfl⟩
  case splice => exact ⟨_, findIn_putIn_same a _ _, rfl⟩
  case sort => exact ⟨_, getObj_setObj_same _ _ _, rfl⟩
  case reverse => exact ⟨_, getObj_setObj_same _ _ _, rfl⟩

/-- C4: for an observed sequence, each of the seven intercepted operations
returns exactly what the underlying primitive returns, re-observes exactly
the inserted elements (push/unshift arguments, splice arguments from the
third on), and appends exactly one notification of the owning node's
structural dep. -/
theorem claim_C4 (fuel : Nat) (st : St) (a : Nat) (o : VObj) (n : Nat) (nd : ObsNode)
    (m : ArrMethod) (args : List VValue)
    (ho : getObj st a = some o)
    (hk : o.kind = ObjKind.array)
    (hob : o.obId = some n)
    (hnd : findIn n st.nodes = some nd) :
    (mutator fuel st a m args).2 = (arrayPrimitive st a m args).2 ∧
    (mutator fuel st a m args).1.notifyLog = st.notifyLog ++ [nd.depId] ∧
    (mutator fuel st a m args).1 =
      { (run fuel (arrayPrimitive st a m args).1 (.obsElems (insertedOf m args))).1 with
        notifyLog :=
          (run fuel (arrayPrimitive st a m args).1 (.obsElems (insertedOf m args))).1.notifyLog
            ++ [nd.depId] } := by
  obtain ⟨o1, ho1, hobeq⟩ := arrayPrimitive_keepsOb st a m args o ho
  have hob1 : o1.obId = some n := hobeq.trans hob
  have hnd1 : findIn n (arrayPrimitive st a m args).1.nodes = some nd := by
    rw [arrayPrimitive_nodes]
    exact hnd
  simp only [mutator, ho1, hob1, hnd1]
  refine ⟨trivial, ?_, trivial⟩
  rw [run_notifyLog, arrayPrimitive_notifyLog]

/-- C1 is false as stated: on an observed record whose node has
`vmCount = 1`, `set(target, "k", 7)` does warn and does return the value,
but it performs NO assignment — afterwards the target still has no own
property `"k"` at all (the object is returned unchanged). -/
theorem claim_C1_counterexample :
    (set 5 rootSt (.ref 0) (.str "k") (.num 7)).2 = .num 7 ∧
    (set 5 rootSt (.ref 0) (.str "k") (.num 7)).1.warnCount = rootSt.warnCount + 1 ∧
    getObj (set 5 rootSt (.ref 0) (.str "k") (.num 7)).1 0 = some rootObj ∧
    findProp "k" rootObj.props = none := by
  refine ⟨?_, ?_, ?_, ?_⟩ <;> decide

/-- C1 (amended): for every observed record whose Observed Node has a nonzero
root-usage counter, calling `set` with a key that is not an own property of
the target emits a diagnostic warning and returns the value WITHOUT assigning
it — the only state change is the warning. -/
theorem claim_C1_amended (fuel : Nat) (st : St) (a : Nat) (o : VObj) (n : Nat)
    (nd : ObsNode) (key : String) (v : VValue)
    (ho : getObj st a = some o)
    (hk : o.kind = ObjKind.plain)
    (hown : findProp key o.props = none)
    (hob : o.obId = some n)
    (hnd : findIn n st.nodes = some nd)
    (hvm : nd.vmCount ≠ 0) :
    set fuel st (.ref a) (.str key) v = ({ st with warnCount := st.warnCount + 1 }, v) := by
  have hvm2 : (nd.vmCount != 0) = true := by
    simpa using hvm
  simp [set, isUndefV, isPrimitiveV, ho, hk, hown, hob, hnd, hvm2, hasOwnKey, keyStr]

theorem depDepend_watchers (st : WSt) (d : Nat) : (depDepend st d).watchers = st.watchers := by
  unfold depDepend
  repeat' split
  all_goals rfl

theorem depDepend_target (st : WSt) (d : Nat) : (depDepend st d).target = st.target := by
  unfold depDepend
  repeat' split
  all_goals rfl

theorem depDepend_keeps (st : WSt) (e d : Nat) :
    (findIn d (depDepend st e).wdeps).isSome = (findIn d st.wdeps).isSome := by
  unfold depDepend
  cases htn : st.target with
  | none => rfl
  | some t0 =>
    cases hf : findIn e st.wdeps with
    | none => rfl
    | some wd0 =>
      by_cases hm : t0 ∈ wd0.subs
      · simp [hm]
      · simp only [hm, if_false]
        by_cases hde : d = e
        · subst hde
          simp [findIn_putIn_same, hf]
        · simp [findIn_putIn_other _ _ _ _ hde]

theorem depDepend_sub_mono (st : WSt) (d e t : Nat) (wd : WDep)
    (h : findIn d st.wdeps = some wd) (ht : t ∈ wd.subs) :
    ∃ wd', findIn d (depDepend st e).wdeps = some wd' ∧ t ∈ wd'.subs := by
  unfold depDepend
  cases htn : st.target with
  | none => exact ⟨wd, h, ht⟩
  | some t0 =>
    cases hf : findIn e st.wdeps with
    | none => exact ⟨wd, h, ht⟩
    | some wd0 =>
      by_cases hm : t0 ∈ wd0.subs
      · simp only [hm, if_true]
        exact ⟨wd, h, ht⟩
      · simp only [hm, if_false]
        by_cases hde : d = e
        · subst hde
          rw [h] at hf
          cases hf
          refine ⟨⟨wd.subs ++ [t0]⟩, ?_, ?_⟩
          · simp [findIn_putIn_same]
          · exact List.mem_append_left _ ht
        · refine ⟨wd, ?_, ht⟩
          simp [findIn_putIn_other _ _ _ _ hde, h]

theorem depDepend_adds (st : WSt) (d t : Nat) (wd : WDep)
    (htgt : st.target = some t) (h : findIn d st.wdeps = some wd) :
    ∃ wd', findIn d (depDepend st d).wdeps = some wd' ∧ t ∈ wd'.subs := by
  unfold depDepend
  rw [htgt, h]
  by_cases hm : t ∈ wd.subs
  · simp only [hm, if_true]
    exact ⟨wd, h, hm⟩
  · simp only [hm, if_false]
    refine ⟨⟨wd.subs ++ [t]⟩, ?_, ?_⟩
    · simp [findIn_putIn_same]
    · exact List.mem_append_right _ (List.mem_singleton.mpr rfl)

theorem foldDepend_watchers (ds : List Nat) : ∀ (st : WSt),
    (List.foldl depDepend st ds).watchers = st.watchers := by
  induction ds with
  | nil => intro st; rfl
  | cons e rest ih =>
    intro st
    rw [List.foldl_cons, ih, depDepend_watchers]

theorem foldDepend_target (ds : List Nat) : ∀ (st : WSt),
    (List.foldl depDepend st ds).target = st.target := by
  induction ds with
  | nil => intro st; rfl
  | cons e rest ih =>
    intro st
    rw [List.foldl_cons, ih, depDepend_target]

theorem foldDepend_mono (ds : List Nat) : ∀ (st : WSt) (d t : Nat) (wd : WDep),
    findIn d st.wdeps = some wd → t ∈ wd.subs →
    ∃ wd', findIn d (List.foldl depDepend st ds).wdeps = some wd' ∧ t ∈ wd'.subs := by
  induction ds with
  | nil => intro st d t wd h ht; exact ⟨wd, h, ht⟩
  | cons e rest ih =>
    intro st d t wd h ht
    rw [List.foldl_cons]
    obtain ⟨wd1, h1, ht1⟩ := depDepend_sub_mono st d e t wd h ht
    exact ih _ d t wd1 h1 ht1

theorem foldDepend_covers (t : Nat) (ds : List Nat) : ∀ (st : WSt),
    st.target = some t →
    (∀ d ∈ ds, (findIn d st.wdeps).isSome) →
    ∀ d ∈ ds, ∃ wd, findIn d (List.foldl depDepend st ds).wdeps = some wd ∧ t ∈ wd.subs := by
  induction ds with
  | nil => intro st _ _ d hd; cases hd
  | cons e rest ih =>
    intro st htgt hall d hd
    rw [List.foldl_cons]
    rcases List.mem_cons.mp hd with rfl | hd'
    · obtain ⟨wde, he⟩ := Option.isSome_iff_exists.mp (hall d (List.mem_cons_self _ _))
      obtain ⟨wd1, h1, ht1⟩ := depDepend_adds st d t wde htgt he
      exact foldDepend_mono rest _ d t wd1 h1 ht1
    · refine ih (depDepend st e) ?_ ?_ d hd'
      · rw [depDepend_target]
        exact htgt
      · intro d2 hd2
        rw [depDepend_keeps]
        exact hall d2 (List.mem_cons_of_mem _ hd2)

theorem wEvaluate_target (st : WSt) (wid : Nat) : (wEvaluate st wid).target = st.target := by
  unfold wEvaluate
  cases findIn wid st.watchers <;> rfl

theorem wEvaluate_wdeps (st : WSt) (wid : Nat) : (wEvaluate st wid).wdeps = st.wdeps := by
  unfold wEvaluate
  cases findIn wid st.watchers <;> rfl

theorem wDepend_watchers (st : WSt) (wid : Nat) : (wDepend st wid).watchers = st.watchers := by
  unfold wDepend
  cases findIn wid st.watchers with
  | none => rfl
  | some w => exact foldDepend_watchers _ _

theorem wDepend_target (st : WSt) (wid : Nat) : (wDepend st wid).target = st.target := by
  unfold wDepend
  cases findIn wid st.watchers with
  | none => rfl
  | some w => exact foldDepend_target _ _

/-- C3: a dirty lazy (computed) watcher is evaluated exactly once by its
first read, which clears the dirty flag and returns the freshly produced
value; a second read with no intervening dependency change performs zero
further evaluations and returns the cached value; and, the read happening
while another watcher is the active target, that outer watcher is registered
in every Dependency Set the lazy watcher holds. -/
theorem claim_C3 (st : WSt) (wid : Nat) (w : Watcher) (t : Nat)
    (hw : findIn wid st.watchers = some w)
    (hlazy : w.lazyMode = true)
    (hdirty : w.dirty = true)
    (htgt : st.target = some t)
    (hdeps : ∀ d ∈ w.deps, (findIn d st.wdeps).isSome) :
    (computedGetter st wid).2 = w.evalValue ∧
    (∃ w1, findIn wid (computedGetter st wid).1.watchers = some w1 ∧
       w1.evalCount = w.evalCount + 1 ∧ w1.dirty = false ∧ w1.value = w.evalValue) ∧
    (computedGetter (computedGetter st wid).1 wid).2 = w.evalValue ∧
    (∃ w2, findIn wid (computedGetter (computedGetter st wid).1 wid).1.watchers = some w2 ∧
       w2.evalCount = w.evalCount + 1) ∧
    (∀ d ∈ w.deps, ∃ wd, findIn d (computedGetter st wid).1.wdeps = some wd ∧ t ∈ wd.subs) := by
  have hst1 : wEvaluate st wid = { st with watchers := putIn wid { w with value := w.evalValue, dirty := false, evalCount := w.evalCount + 1 } st.watchers } := by
    unfold wEvaluate
    rw [hw]
  have hw1 : findIn wid (wEvaluate st wid).watchers =
      some { w with value := w.evalValue, dirty := false, evalCount := w.evalCount + 1 } := by
    rw [hst1]
    exact findIn_putIn_same _ _ _
  have htgt1 : (wEvaluate st wid).target = some t := by
    rw [wEvaluate_target]
    exact htgt
  have e1 : computedGetter st wid =
      (wDepend (wEvaluate st wid) wid,
       ({ w with value := w.evalValue, dirty := false, evalCount := w.evalCount + 1 } : Watcher).value) := by
    unfold computedGetter
    rw [hw]
    simp only [hdirty, if_true, htgt1, Option.isSome_some, wDepend_watchers, hw1]
  have hwS : findIn wid (wDepend (wEvaluate st wid) wid).watchers =
      some { w with value := w.evalValue, dirty := false, evalCount := w.evalCount + 1 } := by
    rw [wDepend_watchers]
    exact hw1
  have htgtS : (wDepend (wEvaluate st wid) wid).target = some t := by
    rw [wDepend_target]
    exact htgt1
  have e2 : computedGetter (wDepend (wEvaluate st wid) wid) wid =
      (wDepend (wDepend (wEvaluate st wid) wid) wid,
       ({ w with value := w.evalValue, dirty := false, evalCount := w.evalCount + 1 } : Watcher).value) := by
    unfold computedGetter
    rw [hwS]
    simp only [Bool.false_eq_true, if_false, htgtS, Option.isSome_some, if_true,
      wDepend_watchers, hwS, hw1]
  refine ⟨?_, ?_, ?_, ?_, ?_⟩
  · rw [e1]
  · rw [e1]
    exact ⟨_, hwS, rfl, rfl, rfl⟩
  · rw [e1]
    rw [e2]
  · rw [e1]
    rw [e2]
    refine ⟨{ w with value := w.evalValue, dirty := false, evalCount := w.evalCount + 1 }, ?_, rfl⟩
    rw [wDepend_watchers]
    exact hwS
  · intro d hd
    rw [e1]
    have hfold : wDepend (wEvaluate st wid) wid =
        List.foldl depDepend (wEvaluate st wid) w.deps := by
      unfold wDepend
      rw [hw1]
    rw [hfold]
    refine foldDepend_covers t w.deps (wEvaluate st wid) htgt1 ?_ d hd
    intro d2 hd2
    rw [wEvaluate_wdeps]
    exact hdeps d2 hd2


/-- Witness for C1 (amended) at the concrete root-data record. -/
theorem claim_C1_amended_witness :
    (getObj rootSt 0 = some rootObj ∧ rootObj.kind = ObjKind.plain ∧
     findProp "k" rootObj.props = none ∧ rootObj.obId = some 0 ∧
     findIn 0 rootSt.nodes = some ⟨0, 1, 1⟩ ∧ (⟨0, 1, 1⟩ : ObsNode).vmCount ≠ 0) ∧
    set 5 rootSt (.ref 0) (.str "k") (.num 7) =
      ({ rootSt with warnCount := rootSt.warnCount + 1 }, .num 7) :=
  ⟨⟨by decide, by decide, by decide, by decide, by decide, by decide⟩,
   claim_C1_amended 5 rootSt 0 rootObj 0 ⟨0, 1, 1⟩ "k" (.num 7)
     (by decide) (by decide) (by decide) (by decide) (by decide) (by decide)⟩

/-- Witness for C2 at a key with both getter and setter delegating to a
composite value, which gets fetched and deep-observed. -/
theorem claim_C2_witness :
    (getObj c2st 0 = some c2obj ∧ findProp "k" c2obj.props = some c2pe ∧
     c2pe.val = .accessor true true (.ref 1) ∧ c2pe.configurable = true) ∧
    ((true = false →
      (defineReactive (4 + 1) c2st 0 "k" none false false).nodes = c2st.nodes ∧
      findIn (c2st.nextId + 1) (defineReactive (4 + 1) c2st 0 "k" none false false).cells =
        some ⟨c2st.nextId, .undef, true, false, .ref 1, false, false, none⟩) ∧
     (true = true →
      (defineReactive (4 + 1) c2st 0 "k" none false false).nodes =
        (run 4 { c2st with nextId := c2st.nextId + 1 } (.obs (.ref 1) false)).1.nodes ∧
      findIn (run 4 { c2st with nextId := c2st.nextId + 1 } (.obs (.ref 1) false)).1.nextId
        (defineReactive (4 + 1) c2st 0 "k" none false false).cells =
        some ⟨c2st.nextId, .ref 1, true, true, .ref 1, false, false,
              (run 4 { c2st with nextId := c2st.nextId + 1 } (.obs (.ref 1) false)).2⟩)) :=
  ⟨⟨by decide, by decide, by decide, by decide⟩,
   claim_C2 4 c2st 0 c2obj "k" c2pe true (.ref 1)
     (by decide) (by decide) (by decide) (by decide)⟩

/-- Witness for C3 at a concrete dirty lazy watcher read under an active
outer target. -/
theorem claim_C3_witness :
    (findIn 1 c3st.watchers = some c3w ∧ c3w.lazyMode = true ∧ c3w.dirty = true ∧
     c3st.target = some 7 ∧ (∀ d ∈ c3w.deps, (findIn d c3st.wdeps).isSome)) ∧
    ((computedGetter c3st 1).2 = c3w.evalValue ∧
     (∃ w1, findIn 1 (computedGetter c3st 1).1.watchers = some w1 ∧
        w1.evalCount = c3w.evalCount + 1 ∧ w1.dirty = false ∧ w1.value = c3w.evalValue) ∧
     (computedGetter (computedGetter c3st 1).1 1).2 = c3w.evalValue ∧
     (∃ w2, findIn 1 (computedGetter (computedGetter c3st 1).1 1).1.watchers = some w2 ∧
        w2.evalCount = c3w.evalCount + 1) ∧
     (∀ d ∈ c3w.deps, ∃ wd, findIn d (computedGetter c3st 1).1.wdeps = some wd ∧ 7 ∈ wd.subs)) :=
  ⟨⟨by decide, by decide, by decide, by decide, by decide⟩,
   claim_C3 c3st 1 c3w 7 (by decide) (by decide) (by decide) (by decide) (by decide)⟩

/-- Witness for C4: appending 3 to the observed sequence [1, 2] returns the
new length, and notifies the structural dep exactly once. -/
theorem claim_C4_witness :
    (getObj c4st 0 = some c4arr ∧ c4arr.kind = ObjKind.array ∧
     c4arr.obId = some 1 ∧ findIn 1 c4st.nodes = some ⟨0, 2, 0⟩) ∧
    ((mutator 5 c4st 0 .push [.num 3]).2 = (arrayPrimitive c4st 0 .push [.num 3]).2 ∧
     (mutator 5 c4st 0 .push [.num 3]).1.notifyLog =
       c4st.notifyLog ++ [(⟨0, 2, 0⟩ : ObsNode).depId] ∧
     (mutator 5 c4st 0 .push [.num 3]).1 =
       { (run 5 (arrayPrimitive c4st 0 .push [.num 3]).1
            (.obsElems (insertedOf .push [.num 3]))).1 with
         notifyLog :=
           (run 5 (arrayPrimitive c4st 0 .push [.num 3]).1
              (.obsElems (insertedOf .push [.num 3]))).1.notifyLog
             ++ [(⟨0, 2, 0⟩ : ObsNode).depId] }) :=
  ⟨⟨by decide, by decide, by decide, by decide⟩,
   claim_C4 5 c4st 0 c4arr 1 ⟨0, 2, 0⟩ .push [.num 3]
     (by decide) (by decide) (by decide) (by decide)⟩

/-- Witness for C5: writing NaN over NaN changes nothing at all. -/
theorem claim_C5_witness :
    (findIn 0 c5st.cells = some c5cell ∧
     (jsStrictEq .nan (if c5cell.hasGetter then c5cell.backing else c5cell.val)
      || (isNaNv .nan && isNaNv (if c5cell.hasGetter then c5cell.backing else c5cell.val))) = true) ∧
    reactiveSetter 3 c5st 0 .nan = c5st :=
  ⟨⟨by decide, by decide⟩, claim_C5 3 c5st 0 c5cell .nan (by decide) (by decide)⟩

/-- Witness for C6: a different value written to a getter-only cell leaves
the cells and the notification log untouched. -/
theorem claim_C6_witness :
    (findIn 0 c6st.cells = some c6cell ∧ c6cell.hasGetter = true ∧ c6cell.hasSetter = false ∧
     (jsStrictEq (.num 2) (if c6cell.hasGetter then c6cell.backing else c6cell.val)
      || (isNaNv (.num 2) && isNaNv (if c6cell.hasGetter then c6cell.backing else c6cell.val))) = false) ∧
    ((reactiveSetter 3 c6st 0 (.num 2)).cells = c6st.cells ∧
     (reactiveSetter 3 c6st 0 (.num 2)).notifyLog = c6st.notifyLog) :=
  ⟨⟨by decide, by decide, by decide, by decide⟩,
   claim_C6 3 c6st 0 c6cell (.num 2) (by decide) (by decide) (by decide) (by decide)⟩

/-- Witness for C8 at a fresh observable record. -/
theorem claim_C8_witness :
    (1 ≤ 3 ∧ 1 ≤ 3) ∧
    (observe 3 (observe 3 c8st (.ref 0) false).1 (.ref 0) false).2 =
      (observe 3 c8st (.ref 0) false).2 :=
  ⟨⟨by decide, by decide⟩, claim_C8 3 3 c8st (.ref 0) false false (by decide) (by decide)⟩

/-- Witness for C9 at a non-extensible plain object. -/
theorem claim_C9_witness :
    (isRefV (.ref 0) = false ∨
     ∃ a o, (VValue.ref 0) = .ref a ∧ getObj c9st a = some o ∧ o.obId = none ∧
       (o.kind = .vnode ∨ c9st.shouldObserve = false ∨
        (o.kind ≠ .array ∧ o.kind ≠ .plain) ∨ o.extensible = false ∨ o.isVue = true)) ∧
    observe 5 c9st (.ref 0) false = (c9st, none) :=
  ⟨Or.inr ⟨0, c9obj, rfl, by decide, by decide,
     Or.inr (Or.inr (Or.inr (Or.inl (by decide))))⟩,
   claim_C9 5 c9st (.ref 0) false
     (Or.inr ⟨0, c9obj, rfl, by decide, by decide,
       Or.inr (Or.inr (Or.inr (Or.inl (by decide))))⟩)⟩

/-- Witness for C10: a cached node is returned while observation is toggled
off, and its root-usage counter goes from 2 to 3. -/
theorem claim_C10_witness :
    (1 ≤ 3 ∧ getObj c10st 0 = some c10obj ∧ c10obj.kind ≠ ObjKind.vnode ∧
     c10obj.obId = some 0 ∧ findIn 0 c10st.nodes = some ⟨0, 1, 2⟩) ∧
    observe 3 (toggleObserving c10st false) (.ref 0) true =
      ({ toggleObserving c10st false with
         nodes := putIn 0 { (⟨0, 1, 2⟩ : ObsNode) with
           vmCount := (⟨0, 1, 2⟩ : ObsNode).vmCount + 1 } c10st.nodes }, some 0) :=
  ⟨⟨by decide, by decide, by decide, by decide, by decide⟩,
   claim_C10 3 c10st 0 c10obj 0 ⟨0, 1, 2⟩
     (by decide) (by decide) (by decide) (by decide) (by decide)⟩

end VueCore
